import Mathlib

/-!
Shallow embedding of the behavioral feature-extraction engine of the
bot-detection repository (backend/features/feature_utils.py,
feature_extractor.py, dataset_builder.py), with theorems checking the
natural-language specification against the code.

Python floats are modelled as real numbers; Python dicts of features are
modelled as association lists in insertion order; a NaN produced by the
pandas statistics layer is modelled as Option.none.
-/

namespace BotDetect

/-- Model of numpy mean over a list of floats: sum divided by length. -/
noncomputable def listMean (xs : List ℝ) : ℝ := xs.sum / xs.length

/-- Model of numpy std (population variant, divisor n). -/
noncomputable def listStd (xs : List ℝ) : ℝ :=
  Real.sqrt ((xs.map (fun x => (x - listMean xs) ^ 2)).sum / xs.length)

/-- Model of numpy max over a list; the sources only apply it to non-empty
lists, the empty case is given the junk value 0. -/
noncomputable def listMax : List ℝ → ℝ
  | [] => 0
  | x :: xs => xs.foldl max x

/-- Model of numpy min over a list; the sources only apply it to non-empty
lists, the empty case is given the junk value 0. -/
noncomputable def listMin : List ℝ → ℝ
  | [] => 0
  | x :: xs => xs.foldl min x

/-- feature_utils.MouseTrajectoryUtils.distance: Euclidean distance
sqrt((x2-x1)^2 + (y2-y1)^2) between two points. -/
noncomputable def distance (pointOne pointTwo : ℝ × ℝ) : ℝ :=
  Real.sqrt ((pointTwo.1 - pointOne.1) ^ 2 + (pointTwo.2 - pointOne.2) ^ 2)

/-- feature_utils.MouseTrajectoryUtils.velocityPixelsPerSecond:
returns 0.0 when timeMs is nonpositive, else distance/timeMs*1000. -/
noncomputable def velocityPixelsPerSecond (distancePx timeMs : ℝ) : ℝ :=
  if timeMs ≤ 0 then 0 else distancePx / timeMs * 1000

/-- feature_utils.MouseTrajectoryUtils.angleBetween: the absolute value of
atan2(det, dot) of the two vectors from pointTwo to pointOne and from
pointTwo to pointThree; atan2(y, x) is the argument of the complex
number x + i y. -/
noncomputable def angleBetween (pointOne pointTwo pointThree : ℝ × ℝ) : ℝ :=
  let v1 : ℝ × ℝ := (pointOne.1 - pointTwo.1, pointOne.2 - pointTwo.2)
  let v2 : ℝ × ℝ := (pointThree.1 - pointTwo.1, pointThree.2 - pointTwo.2)
  let dot : ℝ := v1.1 * v2.1 + v1.2 * v2.2
  let det : ℝ := v1.1 * v2.2 - v1.2 * v2.1
  |Complex.arg ⟨dot, det⟩|

/-- Event shapes consumed by the extractors, with the fields the code reads.
The dict key ts holds the timestamp in milliseconds. -/
structure MouseMoveEvent where
  x : ℝ
  y : ℝ
  ts : ℝ

/-- Click event: timestamp and small integer button code, 0 = primary. -/
structure ClickEvent where
  ts : ℝ
  button : ℤ

/-- Key event: string key code and timestamp. -/
structure KeyEvent where
  code : String
  ts : ℝ

/-- feature_utils.MouseTrajectoryUtils.extractCoordinatesAndTimes:
two empty lists when fewer than 2 moves, else the coordinate pairs and the
consecutive timestamp differences. -/
noncomputable def extractCoordinatesAndTimes (moves : List MouseMoveEvent) :
    List (ℝ × ℝ) × List ℝ :=
  if moves.length < 2 then ([], [])
  else
    let coords := moves.map (fun m => (m.x, m.y))
    let timestamps := moves.map (fun m => m.ts)
    (coords, List.zipWith (fun a b => b - a) timestamps timestamps.tail)

/-- feature_utils.KeystrokeUtils.calculateEntropy: 0.0 for an empty list,
else the Shannon entropy of the frequency distribution obtained by
grouping the items by equality (Counter); the source accumulates
entropy -= p * log2 p over the distinct values, guarded by p > 0. -/
noncomputable def calculateEntropy {α : Type} [DecidableEq α]
    (items : List α) : ℝ :=
  if items.length = 0 then 0
  else
    (items.dedup.map (fun v =>
      let p : ℝ := (items.count v : ℝ) / (items.length : ℝ)
      if 0 < p then -(p * Real.logb 2 p) else 0)).sum

/-- feature_utils.KeystrokeUtils.interKeyDelays: empty for fewer than 2 keys,
else consecutive timestamp differences. -/
noncomputable def interKeyDelays (keys : List KeyEvent) : List ℝ :=
  if keys.length < 2 then []
  else
    let timestamps := keys.map (fun k => k.ts)
    List.zipWith (fun a b => b - a) timestamps timestamps.tail

open scoped Classical

/-- feature_extractor.FeatureExtractor.detectPauses, embedded as written in
the source: the loop body over enumerate(zip(distances, timeDeltas)) ends in
an unconditional return statement, so at most the iteration with index 0
runs; when the zipped sequence is empty the function falls off the end and
returns None. At index 0 the state is the initial one (pauseCount 0,
totalPauseMs 0, isPaused false) and elapsedUntilSegmentStart is the empty
sum 0, so after the first branch the in-loop ongoing-pause check fires
exactly when the first distance is below the distance threshold, with
pauseDuration = sum of all time deltas minus the recorded start 0. -/
noncomputable def detectPauses (pauseDistThresh pauseDurThresh : ℝ)
    (coords : List (ℝ × ℝ)) (timeDeltas : List ℝ) : Option (ℕ × ℝ) :=
  let distances := List.zipWith distance coords coords.tail
  match distances.zip timeDeltas with
  | [] => none
  | (dist, _) :: _ =>
    if dist < pauseDistThresh then
      let totalElapsed := timeDeltas.sum
      let pauseDuration := totalElapsed - 0
      if pauseDurThresh ≤ pauseDuration then some (1, 0 + pauseDuration)
      else some (0, 0)
    else some (0, 0)

/-- State of the two-state pause machine of spec section 4.3. -/
structure PauseState where
  pauseCount : ℕ
  totalPauseMs : ℝ
  isPaused : Bool
  pauseStartMs : ℝ
  elapsedMs : ℝ

/-- Modelled from the spec (section 4.3), as the contract the source
detectPauses is checked against: one transition of the Moving/Paused
machine on a single (distance, timeDelta) segment. A Moving to Paused
transition records the elapsed offset; a Paused to Moving transition adds
the pause to the totals when its duration reaches the threshold. -/
noncomputable def pauseStepSpec (pauseDistThresh pauseDurThresh : ℝ)
    (st : PauseState) (seg : ℝ × ℝ) : PauseState :=
  let st1 :=
    if seg.1 < pauseDistThresh then
      if st.isPaused then st
      else { st with isPaused := true, pauseStartMs := st.elapsedMs }
    else
      if st.isPaused then
        let dur := st.elapsedMs - st.pauseStartMs
        if pauseDurThresh ≤ dur then
          { st with pauseCount := st.pauseCount + 1,
                    totalPauseMs := st.totalPauseMs + dur, isPaused := false }
        else { st with isPaused := false }
      else st
  { st1 with elapsedMs := st1.elapsedMs + seg.2 }

/-- Modelled from the spec (section 4.3): a single linear pass of the pause
machine over all segments in order, followed by one end-of-sequence flush of
a still-open pause against the same duration threshold. -/
noncomputable def detectPausesSpec (pauseDistThresh pauseDurThresh : ℝ)
    (coords : List (ℝ × ℝ)) (timeDeltas : List ℝ) : ℕ × ℝ :=
  let distances := List.zipWith distance coords coords.tail
  let final := (distances.zip timeDeltas).foldl
    (pauseStepSpec pauseDistThresh pauseDurThresh) ⟨0, 0, false, 0, 0⟩
  if final.isPaused then
    let dur := final.elapsedMs - final.pauseStartMs
    if pauseDurThresh ≤ dur then (final.pauseCount + 1, final.totalPauseMs + dur)
    else (final.pauseCount, final.totalPauseMs)
  else (final.pauseCount, final.totalPauseMs)

/-- feature_extractor.FeatureExtractor.extractMouseFeatures with the default
thresholds (5.0 px, 1000 ms) of the FeatureExtractor constructor. The
feature dict is modelled as an association list in insertion order. -/
noncomputable def extractMouseFeatures (moves : List MouseMoveEvent) :
    List (String × ℝ) :=
  if moves.length < 2 then
    [("mouseMoveCount", (moves.length : ℝ)),
     ("mouseAvgVelocity", 0),
     ("mouseStdVelocity", 0),
     ("mouseMaxVelocity", 0),
     ("mousePauseCount", 0),
     ("mouseAvgPauseDurationMs", 0),
     ("mousePathEfficiency", 0),
     ("mouseAngularVelocityStd", 0),
     ("mouseHoverTimeRatio", 0),
     ("mouseHoverFrequency", 0)]
  else
    let ct := extractCoordinatesAndTimes moves
    let coords := ct.1
    let timeDeltas := ct.2
    let distances := List.zipWith distance coords coords.tail
    let velocities := List.zipWith velocityPixelsPerSecond distances timeDeltas
    let pauses := (detectPauses 5 1000 coords timeDeltas).getD (0, 0)
    let totalDistance := distances.sum
    let straightLine := distance (coords.headD (0, 0)) (coords.getLastD (0, 0))
    let angularStd : ℝ :=
      if 3 ≤ coords.length then
        let angles := List.zipWith (fun pq r => angleBetween pq.1 pq.2 r)
          (coords.zip coords.tail) coords.tail.tail
        if 1 < angles.length then listStd angles else 0
      else 0
    let hoverTimeMs := (List.zipWith (fun v t => if v < 10 then t else 0)
      velocities timeDeltas).sum
    let totalTimeMs := timeDeltas.sum
    let hoverCount := (velocities.filter (fun v => v < 10)).length
    [("mouseMoveCount", (moves.length : ℝ)),
     ("mouseAvgVelocity", if velocities = [] then 0 else listMean velocities),
     ("mouseStdVelocity", if 1 < velocities.length then listStd velocities else 0),
     ("mouseMaxVelocity", if velocities = [] then 0 else listMax velocities),
     ("mousePauseCount", (pauses.1 : ℝ)),
     ("mouseAvgPauseDurationMs", pauses.2 / ((max pauses.1 1 : ℕ) : ℝ)),
     ("mousePathEfficiency", totalDistance / max straightLine 1),
     ("mouseAngularVelocityStd", angularStd),
     ("mouseHoverTimeRatio", hoverTimeMs / max totalTimeMs 1),
     ("mouseHoverFrequency", (hoverCount : ℝ) / ((max velocities.length 1 : ℕ) : ℝ))]

/-- feature_extractor.FeatureExtractor.extractClickFeatures. With zero
clicks, all eight features are 0.0; with more than one click the timing
features are computed from the consecutive timestamp intervals; the
button-distribution ratio is computed for any non-empty click list. -/
noncomputable def extractClickFeatures (clicks : List ClickEvent) :
    List (String × ℝ) :=
  if clicks.length = 0 then
    [("clickCount", 0), ("clickRatePerSec", 0), ("clickIntervalMeanMs", 0),
     ("clickIntervalStdMs", 0), ("clickIntervalMinMs", 0),
     ("clickIntervalMaxMs", 0), ("clickClusteringRatio", 0),
     ("clickLeftRatio", 0)]
  else
    let timingFeatures : List (String × ℝ) :=
      if 1 < clicks.length then
        let timestamps := clicks.map (fun c => c.ts)
        let intervals := List.zipWith (fun a b => b - a) timestamps timestamps.tail
        let totalDurationMs := timestamps.getLastD 0 - timestamps.headD 0
        [("clickIntervalMeanMs", listMean intervals),
         ("clickIntervalStdMs", if 1 < intervals.length then listStd intervals else 0),
         ("clickIntervalMinMs", listMin intervals),
         ("clickIntervalMaxMs", listMax intervals),
         ("clickClusteringRatio",
            ((intervals.filter (fun x => x < 500)).length : ℝ) / (intervals.length : ℝ)),
         ("clickRatePerSec",
            if 0 < totalDurationMs then (clicks.length : ℝ) / totalDurationMs * 1000
            else 0)]
      else
        [("clickRatePerSec", 0), ("clickIntervalMeanMs", 0),
         ("clickIntervalStdMs", 0), ("clickIntervalMinMs", 0),
         ("clickIntervalMaxMs", 0), ("clickClusteringRatio", 0)]
    let buttons := clicks.map (fun c => c.button)
    let leftClicks := (buttons.filter (fun b => b = 0)).length
    ("clickCount", (clicks.length : ℝ)) :: timingFeatures ++
      [("clickLeftRatio", (leftClicks : ℝ) / (clicks.length : ℝ))]

/-- feature_extractor.FeatureExtractor.extractKeystrokeFeatures. Note the
source writes the key keyInterKeyDelayStdMs in the empty branch but
keyInterKeyDelayStd in the two other branches; the embedding keeps that
spelling difference. -/
noncomputable def extractKeystrokeFeatures (keys : List KeyEvent) :
    List (String × ℝ) :=
  if keys.length = 0 then
    [("keyCount", 0), ("keyRatePerSec", 0), ("keyInterKeyDelayMeanMs", 0),
     ("keyInterKeyDelayStdMs", 0), ("keyEntropy", 0), ("keyRapidPresses", 0)]
  else
    let delayFeatures : List (String × ℝ) :=
      if 1 < keys.length then
        let delays := interKeyDelays keys
        if 0 < delays.length then
          [("keyInterKeyDelayMeanMs", listMean delays),
           ("keyInterKeyDelayStd", if 1 < delays.length then listStd delays else 0),
           ("keyRapidPresses", ((delays.filter (fun d => d < 50)).length : ℝ))]
        else
          [("keyInterKeyDelayMeanMs", 0), ("keyInterKeyDelayStd", 0),
           ("keyRapidPresses", 0)]
      else
        [("keyInterKeyDelayMeanMs", 0), ("keyInterKeyDelayStd", 0),
         ("keyRapidPresses", 0)]
    let keyCodes := keys.map (fun k => k.code)
    let timestamps := keys.map (fun k => k.ts)
    let rate : ℝ :=
      if 2 ≤ timestamps.length then
        let durationMs := listMax timestamps - listMin timestamps
        (keys.length : ℝ) / max durationMs 1 * 1000
      else 0
    ("keyCount", (keys.length : ℝ)) :: delayFeatures ++
      [("keyEntropy", calculateEntropy keyCodes), ("keyRatePerSec", rate)]

/-- feature_extractor.FeatureExtractor.extractTemporalFeatures: batch
duration and event rate from the pooled timestamps, signal-diversity
entropy over the three proportions, and ratios relative to mouse moves. -/
noncomputable def extractTemporalFeatures (moves : List MouseMoveEvent)
    (clicks : List ClickEvent) (keys : List KeyEvent) : List (String × ℝ) :=
  let allTimestamps := moves.map (fun m => m.ts) ++ clicks.map (fun c => c.ts)
    ++ keys.map (fun k => k.ts)
  let durFeatures : List (String × ℝ) :=
    if 2 ≤ allTimestamps.length then
      let batchDurationMs := listMax allTimestamps - listMin allTimestamps
      let totalEvents := moves.length + clicks.length + keys.length
      [("batchDurationMs", batchDurationMs),
       ("eventRatePerSec", (totalEvents : ℝ) / max batchDurationMs 1 * 1000)]
    else [("batchDurationMs", 0), ("eventRatePerSec", 0)]
  let total := moves.length + clicks.length + keys.length
  let diversity : ℝ :=
    if 0 < total then
      calculateEntropy [(moves.length : ℝ) / (total : ℝ),
        (clicks.length : ℝ) / (total : ℝ), (keys.length : ℝ) / (total : ℝ)]
    else 0
  let ratios : List (String × ℝ) :=
    if 0 < moves.length then
      [("clickToMoveRatio", (clicks.length : ℝ) / (moves.length : ℝ)),
       ("keyToMoveRatio", (keys.length : ℝ) / (moves.length : ℝ))]
    else [("clickToMoveRatio", 0), ("keyToMoveRatio", 0)]
  durFeatures ++ [("signalDiversityEntropy", diversity)] ++ ratios

/-- One batch of parsed signals, the three lists the extractor reads after
the dict lookups with empty-list defaults. -/
structure BatchData where
  mouseMoves : List MouseMoveEvent
  clicks : List ClickEvent
  keys : List KeyEvent

/-- feature_extractor.FeatureExtractor.extractBatchFeatures: the counts and
presence flags followed by the four extractor outputs, merged by dict
update; all key names across the four sections are distinct, so the merge
is modelled as list append in insertion order. -/
noncomputable def extractBatchFeatures (b : BatchData) : List (String × ℝ) :=
  [("batch_event_count",
      ((b.mouseMoves.length + b.clicks.length + b.keys.length : ℕ) : ℝ)),
   ("has_mouse_moves", if 0 < b.mouseMoves.length then 1 else 0),
   ("has_clicks", if 0 < b.clicks.length then 1 else 0),
   ("has_keys", if 0 < b.keys.length then 1 else 0)] ++
  extractMouseFeatures b.mouseMoves ++ extractClickFeatures b.clicks ++
  extractKeystrokeFeatures b.keys ++
  extractTemporalFeatures b.mouseMoves b.clicks b.keys

/-- pandas Series.std with its default ddof = 1 (sample standard deviation,
divisor n - 1), as called at dataset_builder.py line 107. On a single
value the divisor is zero and pandas produces NaN, modelled as none. -/
noncomputable def pandasStd (vs : List ℝ) : Option ℝ :=
  if 2 ≤ vs.length then
    some (Real.sqrt ((vs.map (fun x => (x - listMean vs) ^ 2)).sum
      / ((vs.length : ℝ) - 1)))
  else none

/-- pandas Series.quantile with the default linear interpolation: on the
sorted values s of length n, the quantile q is read at position
h = q * (n - 1), interpolating between the floor and ceiling indices. -/
noncomputable def pandasQuantile (vs : List ℝ) (q : ℝ) : ℝ :=
  let s := vs.insertionSort (· ≤ ·)
  let h : ℝ := q * ((vs.length : ℝ) - 1)
  let lo := s.getD ⌊h⌋₊ 0
  let hi := s.getD ⌈h⌉₊ 0
  lo + (h - (⌊h⌋₊ : ℝ)) * (hi - lo)

/-- Inner loop of dataset_builder.buildSessionLevelDataset (lines 102-119):
the six statistics emitted for one feature column from its non-missing
values, keyed by the column name; the zero defaults apply when no
non-missing values exist. A none value models a NaN emitted by pandas. -/
noncomputable def aggregateColumn (col : String) (values : List ℝ) :
    List (String × Option ℝ) :=
  if 0 < values.length then
    [(col ++ "_mean", some (listMean values)),
     (col ++ "_std", pandasStd values),
     (col ++ "_min", some (listMin values)),
     (col ++ "_max", some (listMax values)),
     (col ++ "_p50", some (pandasQuantile values 0.5)),
     (col ++ "_p95", some (pandasQuantile values 0.95))]
  else
    [(col ++ "_mean", some 0), (col ++ "_std", some 0),
     (col ++ "_min", some 0), (col ++ "_max", some 0),
     (col ++ "_p50", some 0), (col ++ "_p95", some 0)]

/-- One loaded signal record, with the columns the batch-level builder
reads from the loaded frame. -/
structure SignalRow where
  sessionID : String
  timestamp : ℝ
  timestampRelativeMs : ℝ
  batch : BatchData

/-- One row of the batch-level dataset: the tag columns plus the feature
mapping of the batch. -/
structure BatchRow where
  sessionID : String
  timestamp : ℝ
  timestampRelativeMs : ℝ
  features : List (String × ℝ)

/-- One row of the session-level dataset. -/
structure SessionRow where
  sessionID : String
  batchCount : ℕ
  stats : List (String × Option ℝ)

/-- dataset_builder.DatasetBuilder.buildBatchLevelDataset on the loaded
signal records: an empty frame when no signals were loaded, else one
feature row per batch tagged with the session id and timestamps. File
output and logging are external effects outside the embedding. -/
noncomputable def buildBatchLevelDataset (signals : List SignalRow) :
    List BatchRow :=
  if signals.length = 0 then []
  else signals.map (fun r =>
    { sessionID := r.sessionID, timestamp := r.timestamp,
      timestampRelativeMs := r.timestampRelativeMs,
      features := extractBatchFeatures r.batch })

/-- dataset_builder.DatasetBuilder.buildSessionLevelDataset: builds the
batch-level frame, returns an empty frame when it is empty, else groups
the rows by session id and emits one row per session with the batch count
and the six statistics per feature column. The frame columns are the
feature keys in first-appearance order; a row missing a column contributes
a NaN that dropna removes, modelled by filterMap over the lookups. -/
noncomputable def buildSessionLevelDataset (signals : List SignalRow) :
    List SessionRow :=
  let batchDf := buildBatchLevelDataset signals
  if batchDf.length = 0 then []
  else
    let featureCols := ((batchDf.map (fun r => r.features.map Prod.fst)).flatten).dedup
    (batchDf.map (fun r => r.sessionID)).dedup.map (fun sid =>
      let sessionData := batchDf.filter (fun r => r.sessionID = sid)
      { sessionID := sid, batchCount := sessionData.length,
        stats := (featureCols.map (fun col =>
          aggregateColumn col
            (sessionData.filterMap (fun r => r.features.lookup col)))).flatten })

/-- Mouse move event as a raw dict: each field may be missing. -/
structure MouseMoveEventD where
  x : Option ℝ
  y : Option ℝ
  ts : Option ℝ

/-- Click event as a raw dict: each field may be missing. -/
structure ClickEventD where
  ts : Option ℝ
  button : Option ℤ

/-- Key event as a raw dict: each field may be missing. -/
structure KeyEventD where
  code : Option String
  ts : Option ℝ

/-- A Python subscript access d[k]: the value when the key is present, a
KeyError propagated to the caller when it is missing. -/
def requireField {α : Type} : Option α → Except String α
  | some v => Except.ok v
  | none => Except.error "KeyError"

/-- feature_utils.MouseTrajectoryUtils.extractCoordinatesAndTimes over raw
dict events: the coordinate comprehension subscripts x and y and the
timestamp comprehension subscripts ts, so a missing field raises; with
fewer than 2 moves the function returns before any subscript access. -/
noncomputable def extractCoordinatesAndTimesD (moves : List MouseMoveEventD) :
    Except String (List (ℝ × ℝ) × List ℝ) :=
  if moves.length < 2 then Except.ok ([], [])
  else do
    let coords ← moves.mapM (fun m => do
      pure ((← requireField m.x), (← requireField m.y)))
    let timestamps ← moves.mapM (fun m => requireField m.ts)
    pure (coords, List.zipWith (fun a b => b - a) timestamps timestamps.tail)

/-- feature_extractor.FeatureExtractor.extractClickFeatures over raw dict
events: the timestamp comprehension subscripts ts (raising on a missing
timestamp, and only reached with more than one click), while the button is
read with dict get and the default 0. -/
noncomputable def extractClickFeaturesD (clicks : List ClickEventD) :
    Except String (List (String × ℝ)) :=
  if clicks.length = 0 then
    Except.ok
      [("clickCount", 0), ("clickRatePerSec", 0), ("clickIntervalMeanMs", 0),
       ("clickIntervalStdMs", 0), ("clickIntervalMinMs", 0),
       ("clickIntervalMaxMs", 0), ("clickClusteringRatio", 0),
       ("clickLeftRatio", 0)]
  else do
    let timingFeatures : List (String × ℝ) ←
      if 1 < clicks.length then do
        let timestamps ← clicks.mapM (fun c => requireField c.ts)
        let intervals := List.zipWith (fun a b => b - a) timestamps timestamps.tail
        let totalDurationMs := timestamps.getLastD 0 - timestamps.headD 0
        pure
          [("clickIntervalMeanMs", listMean intervals),
           ("clickIntervalStdMs", if 1 < intervals.length then listStd intervals else 0),
           ("clickIntervalMinMs", listMin intervals),
           ("clickIntervalMaxMs", listMax intervals),
           ("clickClusteringRatio",
              ((intervals.filter (fun x => x < 500)).length : ℝ) / (intervals.length : ℝ)),
           ("clickRatePerSec",
              if 0 < totalDurationMs then (clicks.length : ℝ) / totalDurationMs * 1000
              else 0)]
      else
        pure
          [("clickRatePerSec", 0), ("clickIntervalMeanMs", 0),
           ("clickIntervalStdMs", 0), ("clickIntervalMinMs", 0),
           ("clickIntervalMaxMs", 0), ("clickClusteringRatio", 0)]
    let buttons := clicks.map (fun c => c.button.getD 0)
    let leftClicks := (buttons.filter (fun b => b = 0)).length
    pure (("clickCount", (clicks.length : ℝ)) :: timingFeatures ++
      [("clickLeftRatio", (leftClicks : ℝ) / (clicks.length : ℝ))])

/-- feature_utils.KeystrokeUtils.interKeyDelays over raw dict events: the
timestamp comprehension subscripts ts. -/
noncomputable def interKeyDelaysD (keys : List KeyEventD) :
    Except String (List ℝ) :=
  if keys.length < 2 then Except.ok []
  else do
    let timestamps ← keys.mapM (fun k => requireField k.ts)
    pure (List.zipWith (fun a b => b - a) timestamps timestamps.tail)

/-- feature_extractor.FeatureExtractor.extractKeystrokeFeatures over raw
dict events: the key code is read with dict get and the default Unknown,
while the timestamp comprehension near the end subscripts ts for every
non-empty key list. -/
noncomputable def extractKeystrokeFeaturesD (keys : List KeyEventD) :
    Except String (List (String × ℝ)) :=
  if keys.length = 0 then
    Except.ok
      [("keyCount", 0), ("keyRatePerSec", 0), ("keyInterKeyDelayMeanMs", 0),
       ("keyInterKeyDelayStdMs", 0), ("keyEntropy", 0), ("keyRapidPresses", 0)]
  else do
    let delayFeatures : List (String × ℝ) ←
      if 1 < keys.length then do
        let delays ← interKeyDelaysD keys
        pure
          (if 0 < delays.length then
            [("keyInterKeyDelayMeanMs", listMean delays),
             ("keyInterKeyDelayStd", if 1 < delays.length then listStd delays else 0),
             ("keyRapidPresses", ((delays.filter (fun d => d < 50)).length : ℝ))]
          else
            [("keyInterKeyDelayMeanMs", 0), ("keyInterKeyDelayStd", 0),
             ("keyRapidPresses", 0)])
      else
        pure
          [("keyInterKeyDelayMeanMs", 0), ("keyInterKeyDelayStd", 0),
           ("keyRapidPresses", 0)]
    let keyCodes := keys.map (fun k => k.code.getD "Unknown")
    let timestamps ← keys.mapM (fun k => requireField k.ts)
    let rate : ℝ :=
      if 2 ≤ timestamps.length then
        let durationMs := listMax timestamps - listMin timestamps
        (keys.length : ℝ) / max durationMs 1 * 1000
      else 0
    pure (("keyCount", (keys.length : ℝ)) :: delayFeatures ++
      [("keyEntropy", calculateEntropy keyCodes), ("keyRatePerSec", rate)])

/-- A raw click event with its timestamp present, reduced to the field
values the total extractor reads: the button defaults to the primary 0. -/
noncomputable def stripClick (c : ClickEventD) : ClickEvent :=
  { ts := c.ts.getD 0, button := c.button.getD 0 }

/-- A raw key event with its timestamp present, reduced to the field values
the total extractor reads: the code defaults to Unknown. -/
noncomputable def stripKey (k : KeyEventD) : KeyEvent :=
  { code := k.code.getD "Unknown", ts := k.ts.getD 0 }

/-- C9: when the input collection at the builder layer is empty (no batches
loaded, hence no sessions), both the batch-level and the session-level
dataset builders return an empty result rather than raising an error. -/
theorem builders_empty_input_C9 :
    buildBatchLevelDataset [] = [] ∧ buildSessionLevelDataset [] = [] :=
  ⟨rfl, rfl⟩

/-- C7: for nonnegative distance, the velocity utility returns 0.0 when the
time delta is nonpositive and distance/deltaMs*1000 otherwise; it never
divides by zero and never returns a negative value. -/
theorem velocityPixelsPerSecond_safe_C7 (distancePx timeMs : ℝ)
    (hd : 0 ≤ distancePx) :
    (timeMs ≤ 0 → velocityPixelsPerSecond distancePx timeMs = 0) ∧
    (0 < timeMs → velocityPixelsPerSecond distancePx timeMs
      = distancePx / timeMs * 1000) ∧
    0 ≤ velocityPixelsPerSecond distancePx timeMs := by
  unfold velocityPixelsPerSecond
  refine ⟨fun h => if_pos h, fun h => if_neg (not_le.mpr h), ?_⟩
  split
  · exact le_refl 0
  · rename_i h
    have ht : 0 < timeMs := lt_of_not_le h
    positivity

/-- Witness for C7 at distance 5 px over 2 ms. -/
theorem velocityPixelsPerSecond_safe_C7_witness :
    (0 : ℝ) ≤ 5 ∧ velocityPixelsPerSecond 5 2 = 2500 := by
  have h := velocityPixelsPerSecond_safe_C7 5 2 (by norm_num)
  exact ⟨by norm_num, by rw [h.2.1 (by norm_num)]; norm_num⟩

/-- C6: with fewer than 2 moves the mouse extractor returns mouseMoveCount
equal to the input length and every other mouse feature exactly 0.0. -/
theorem extractMouseFeatures_degenerate_C6 (moves : List MouseMoveEvent)
    (h : moves.length < 2) :
    extractMouseFeatures moves =
      [("mouseMoveCount", (moves.length : ℝ)),
       ("mouseAvgVelocity", 0),
       ("mouseStdVelocity", 0),
       ("mouseMaxVelocity", 0),
       ("mousePauseCount", 0),
       ("mouseAvgPauseDurationMs", 0),
       ("mousePathEfficiency", 0),
       ("mouseAngularVelocityStd", 0),
       ("mouseHoverTimeRatio", 0),
       ("mouseHoverFrequency", 0)] := by
  unfold extractMouseFeatures
  rw [if_pos h]

/-- Witness for C6 on a single-move list. -/
theorem extractMouseFeatures_degenerate_C6_witness :
    [({ x := 7, y := 8, ts := 1000 } : MouseMoveEvent)].length < 2 ∧
    extractMouseFeatures [{ x := 7, y := 8, ts := 1000 }] =
      [("mouseMoveCount", 1),
       ("mouseAvgVelocity", 0),
       ("mouseStdVelocity", 0),
       ("mouseMaxVelocity", 0),
       ("mousePauseCount", 0),
       ("mouseAvgPauseDurationMs", 0),
       ("mousePathEfficiency", 0),
       ("mouseAngularVelocityStd", 0),
       ("mouseHoverTimeRatio", 0),
       ("mouseHoverFrequency", 0)] := by
  constructor
  · decide
  · rw [extractMouseFeatures_degenerate_C6 _ (by decide)]
    norm_num

/-- C2: the claim that extractBatchFeatures emits an identical feature key
set for every batch fails on the code: the empty-keys branch of the
keystroke extractor writes the key keyInterKeyDelayStdMs while the
non-empty branches write keyInterKeyDelayStd, so a batch with no key
events and a batch with one key event disagree on their key sets. -/
theorem extractBatchFeatures_keySet_mismatch_C2 :
    "keyInterKeyDelayStdMs" ∈
      (extractBatchFeatures ⟨[], [], []⟩).map Prod.fst ∧
    "keyInterKeyDelayStdMs" ∉
      (extractBatchFeatures ⟨[], [], [{ code := "KeyA", ts := 0 }]⟩).map
        Prod.fst := by
  constructor
  · simp [extractBatchFeatures, extractMouseFeatures, extractClickFeatures,
      extractKeystrokeFeatures, extractTemporalFeatures, interKeyDelays]
  · simp [extractBatchFeatures, extractMouseFeatures, extractClickFeatures,
      extractKeystrokeFeatures, extractTemporalFeatures, interKeyDelays]

/-- Distance along a horizontal segment is the absolute coordinate
difference. -/
theorem distance_same_y (a b y : ℝ) : distance (a, y) (b, y) = |b - a| := by
  unfold distance
  simp [Real.sqrt_sq_eq_abs]

/-- Distance from a point to itself is zero. -/
theorem distance_self (p : ℝ × ℝ) : distance p p = 0 := by
  unfold distance
  simp

/-- C1: the claim that detectPauses performs the specified linear pass over
all segments fails on the code: the return statement sits inside the loop
body, so only the first segment is ever examined. On a trace whose pause
begins at the second segment the code reports no pause while the spec
machine reports one qualifying pause of 4000 ms. -/
theorem detectPauses_stops_after_first_segment_C1 :
    detectPauses 5 1000 [(0, 0), (100, 0), (100, 0), (100, 0)]
        [100, 2000, 2000] = some (0, 0) ∧
    detectPausesSpec 5 1000 [(0, 0), (100, 0), (100, 0), (100, 0)]
        [100, 2000, 2000] = (1, 4000) := by
  have h1 : distance ((0 : ℝ), (0 : ℝ)) (100, 0) = 100 := by
    rw [distance_same_y]; norm_num
  have h2 : distance ((100 : ℝ), (0 : ℝ)) (100, 0) = 0 :=
    distance_self _
  constructor
  · simp only [detectPauses, List.zipWith, List.tail, List.zip, List.zipWithAll]
    simp only [List.zipWith, h1, h2]
    norm_num
  · simp only [detectPausesSpec, List.zipWith, List.tail]
    simp only [h1, h2]
    simp only [List.zip, List.zipWith, List.foldl, pauseStepSpec]
    norm_num

/-- C3: the claim that the session aggregator emits the population standard
deviation (and hence std = 0.0, never NaN, for a single contributing batch)
fails on the code: pandas Series.std defaults to the sample standard
deviation with divisor n - 1, which is NaN for a single value. On a feature
column with the single value 5.0 the other five statistics collapse to 5.0
as claimed, but the std statistic is NaN, modelled as none. -/
theorem aggregateColumn_single_batch_C3 :
    aggregateColumn "f" [5] =
      [("f_mean", some 5), ("f_std", none), ("f_min", some 5),
       ("f_max", some 5), ("f_p50", some 5), ("f_p95", some 5)] := by
  simp only [aggregateColumn, pandasStd, pandasQuantile, listMean, listMin,
    listMax, List.insertionSort]
  norm_num
  exact ⟨rfl, rfl, rfl, rfl, rfl, rfl⟩

/-- Sum of a constant function mapped over a list. -/
theorem sum_map_const_real {α : Type} (l : List α) (c : ℝ) :
    (l.map (fun _ => c)).sum = l.length * c := by
  induction l with
  | nil => simp
  | cons a l ih => simp [ih]; ring

/-- Dedup of a non-empty constant list is the singleton. -/
theorem dedup_replicate_succ {α : Type} [DecidableEq α] (n : ℕ) (a : α) :
    (List.replicate (n + 1) a).dedup = [a] := by
  induction n with
  | zero => simp
  | succ n ih =>
    rw [List.replicate_succ, List.dedup_cons_of_mem
      (List.mem_replicate.mpr ⟨Nat.succ_ne_zero n, rfl⟩), ih]

/-- Entropy of the empty list is zero. -/
theorem calculateEntropy_nil {α : Type} [DecidableEq α] :
    calculateEntropy ([] : List α) = 0 := rfl

/-- Entropy of a list holding k distinct values, each occurring m times,
is the base-2 logarithm of k. -/
theorem calculateEntropy_uniform {α : Type} [DecidableEq α]
    (items : List α) (k m : ℕ) (hk : items.dedup.length = k)
    (hm : ∀ x ∈ items.dedup, items.count x = m) (hm1 : 1 ≤ m) :
    calculateEntropy items = Real.logb 2 (k : ℝ) := by
  have hlen : items.length = k * m := by
    have h1 := List.sum_map_count_dedup_eq_length items
    rw [List.map_congr_left hm] at h1
    have h2 : (items.dedup.map (fun _ => m)).sum = items.dedup.length * m := by
      induction items.dedup with
      | nil => simp
      | cons b l ih => simp [ih]; ring
    rw [h2, hk] at h1
    omega
  rcases Nat.eq_zero_or_pos k with hk0 | hkpos
  · subst hk0
    have hd : items.dedup = [] := List.length_eq_zero.mp hk
    have : items = [] := (List.dedup_eq_nil items).mp hd
    subst this
    simp [calculateEntropy_nil, Real.logb]
  · have hne : items.length ≠ 0 := by
      rw [hlen]; exact Nat.mul_ne_zero (by omega) (by omega)
    unfold calculateEntropy
    rw [if_neg hne]
    have hkR : (0 : ℝ) < (k : ℝ) := by exact_mod_cast hkpos
    have hmR : ((m : ℕ) : ℝ) ≠ 0 := Nat.cast_ne_zero.mpr (by omega)
    have hmap : ∀ x ∈ items.dedup,
        (let p : ℝ := (items.count x : ℝ) / (items.length : ℝ)
         if 0 < p then -(p * Real.logb 2 p) else 0)
          = (1 / (k : ℝ)) * Real.logb 2 (k : ℝ) := by
      intro x hx
      have hcount := hm x hx
      have hp : (items.count x : ℝ) / (items.length : ℝ) = 1 / (k : ℝ) := by
        rw [hcount, hlen]
        push_cast
        field_simp
        ring
      simp only [hp]
      rw [if_pos (by positivity)]
      rw [one_div, Real.logb_inv]
      ring
    rw [List.map_congr_left hmap]
    rw [sum_map_const_real, hk]
    have hkne : (k : ℝ) ≠ 0 := ne_of_gt hkR
    field_simp

/-- Entropy of a list whose items are all equal is zero. -/
theorem calculateEntropy_all_eq {α : Type} [DecidableEq α]
    (items : List α) (a : α) (h : ∀ x ∈ items, x = a) :
    calculateEntropy items = 0 := by
  cases items with
  | nil => rfl
  | cons b l =>
    have hrep : b :: l = List.replicate (l.length + 1) a := by
      have := List.eq_replicate_length.mpr h
      simpa using this
    rw [hrep]
    have hu := calculateEntropy_uniform (List.replicate (l.length + 1) a)
      1 (l.length + 1)
      (by rw [dedup_replicate_succ]; rfl)
      (by
        intro x hx
        rw [dedup_replicate_succ] at hx
        simp only [List.mem_singleton] at hx
        subst hx
        simp [List.count_replicate])
      (by omega)
    rw [hu]
    norm_num

/-- C5: the entropy utility returns 0.0 for an empty input, 0.0 for any
input whose items are all equal, and log2(k) for any input of k distinct
values each occurring the same number m of times. -/
theorem calculateEntropy_spec_C5 :
    (∀ (α : Type) [DecidableEq α], calculateEntropy ([] : List α) = 0) ∧
    (∀ (α : Type) [DecidableEq α] (items : List α) (a : α),
      (∀ x ∈ items, x = a) → calculateEntropy items = 0) ∧
    (∀ (α : Type) [DecidableEq α] (items : List α) (k m : ℕ),
      items.dedup.length = k → (∀ x ∈ items.dedup, items.count x = m) →
      1 ≤ m → calculateEntropy items = Real.logb 2 (k : ℝ)) :=
  ⟨fun _ _ => calculateEntropy_nil,
   fun _ _ => calculateEntropy_all_eq,
   fun _ _ => calculateEntropy_uniform⟩

/-- Witness for C5: two distinct one-occurrence items give entropy
log2(2) = 1. -/
theorem calculateEntropy_spec_C5_witness :
    (["a", "b"].dedup.length = 2 ∧ (1 : ℕ) ≤ 1) ∧
    calculateEntropy ["a", "b"] = 1 := by
  have h := calculateEntropy_spec_C5.2.2 String ["a", "b"] 2 1
    (by decide) (by decide) (by decide)
  refine ⟨⟨by decide, le_refl 1⟩, ?_⟩
  rw [h]
  norm_num [Real.logb_self_eq_one]

/-- Entropy of a three-element list whose dedup is a pair with counts 2
and 1. -/
theorem entropy_split_21 (l : List ℝ) (x y : ℝ) (hlen : l.length = 3)
    (hded : l.dedup = [x, y]) (hcx : l.count x = 2) (hcy : l.count y = 1) :
    calculateEntropy l = Real.logb 2 3 - 2 / 3 := by
  unfold calculateEntropy
  rw [if_neg (by omega)]
  rw [hded]
  simp only [List.map_cons, List.map_nil, List.sum_cons, List.sum_nil,
    hcx, hcy, hlen, add_zero]
  norm_num
  have e1 : Real.logb 2 (2 / 3 : ℝ) = 1 - Real.logb 2 3 := by
    rw [Real.logb_div (by norm_num) (by norm_num),
      Real.logb_self_eq_one (by norm_num)]
  have e2 : Real.logb 2 (1 / 3 : ℝ) = -Real.logb 2 3 := by
    rw [one_div, Real.logb_inv]
  rw [e1, e2]
  ring

/-- Entropy of a three-element list whose dedup is a pair with counts 1
and 2. -/
theorem entropy_split_12 (l : List ℝ) (x y : ℝ) (hlen : l.length = 3)
    (hded : l.dedup = [x, y]) (hcx : l.count x = 1) (hcy : l.count y = 2) :
    calculateEntropy l = Real.logb 2 3 - 2 / 3 := by
  unfold calculateEntropy
  rw [if_neg (by omega)]
  rw [hded]
  simp only [List.map_cons, List.map_nil, List.sum_cons, List.sum_nil,
    hcx, hcy, hlen, add_zero]
  norm_num
  have e1 : Real.logb 2 (2 / 3 : ℝ) = 1 - Real.logb 2 3 := by
    rw [Real.logb_div (by norm_num) (by norm_num),
      Real.logb_self_eq_one (by norm_num)]
  have e2 : Real.logb 2 (1 / 3 : ℝ) = -Real.logb 2 3 := by
    rw [one_div, Real.logb_inv]
  rw [e1, e2]
  ring

/-- Entropy of a three-element list with three distinct values. -/
theorem entropy_three_distinct (a b c : ℝ) (hab : a ≠ b) (hac : a ≠ c)
    (hbc : b ≠ c) : calculateEntropy [a, b, c] = Real.logb 2 3 := by
  unfold calculateEntropy
  rw [if_neg (by simp)]
  have hded : ([a, b, c] : List ℝ).dedup = [a, b, c] := by
    rw [List.dedup_cons_of_not_mem (by simp [hab, hac]),
      List.dedup_cons_of_not_mem (by simp [hbc]),
      List.dedup_cons_of_not_mem (by simp)]
    rfl
  rw [hded]
  have h1 : ([a, b, c] : List ℝ).count a = 1 := by
    simp [List.count_cons, hab.symm, hac.symm]
  have h2 : ([a, b, c] : List ℝ).count b = 1 := by
    simp [List.count_cons, hab, hbc.symm]
  have h3 : ([a, b, c] : List ℝ).count c = 1 := by
    simp [List.count_cons, hac, hbc]
  simp only [List.map_cons, List.map_nil, List.sum_cons, List.sum_nil,
    add_zero, h1, h2, h3]
  norm_num
  have e2 : Real.logb 2 (1 / 3 : ℝ) = -Real.logb 2 3 := by
    rw [one_div, Real.logb_inv]
  rw [e2]
  ring

/-- Dedup of a singleton list. -/
theorem dedup_single {α : Type} [DecidableEq α] (x : α) :
    ([x] : List α).dedup = [x] := by
  rw [List.dedup_cons_of_not_mem (List.not_mem_nil x), List.dedup_nil]

/-- The entropy of a three-element real list takes one of three values,
selected only by which of the three pairwise equalities hold. -/
noncomputable def entropy3Class (a b c : ℝ) : ℝ :=
  if a = b ∧ b = c then 0
  else if a = b ∨ a = c ∨ b = c then Real.logb 2 3 - 2 / 3
  else Real.logb 2 3

/-- The grouping-by-equality entropy of a three-element list is classified
by the pairwise equality pattern of its entries. -/
theorem calculateEntropy_three (a b c : ℝ) :
    calculateEntropy [a, b, c] = entropy3Class a b c := by
  unfold entropy3Class
  by_cases hab : a = b
  · by_cases hbc : b = c
    · rw [if_pos ⟨hab, hbc⟩]
      subst hab; subst hbc
      exact calculateEntropy_all_eq _ a (by intro x hx; simp at hx; tauto)
    · rw [if_neg (by tauto), if_pos (Or.inl hab)]
      subst hab
      apply entropy_split_21 [a, a, c] a c (by simp)
      · rw [List.dedup_cons_of_mem (by simp),
          List.dedup_cons_of_not_mem (by simp [hbc]), dedup_single]
      · simp [List.count_cons, Ne.symm hbc]
      · simp [List.count_cons, hbc]
  · by_cases hac : a = c
    · rw [if_neg (by tauto), if_pos (Or.inr (Or.inl hac))]
      subst hac
      apply entropy_split_12 [a, b, a] b a (by simp)
      · rw [List.dedup_cons_of_mem (by simp),
          List.dedup_cons_of_not_mem (by simp [Ne.symm hab]), dedup_single]
      · simp [List.count_cons, hab]
      · simp [List.count_cons, Ne.symm hab]
    · by_cases hbc : b = c
      · rw [if_neg (by tauto), if_pos (Or.inr (Or.inr hbc))]
        subst hbc
        apply entropy_split_12 [a, b, b] a b (by simp)
        · rw [List.dedup_cons_of_not_mem (by simp [hab]),
            List.dedup_cons_of_mem (by simp), dedup_single]
        · simp [List.count_cons, Ne.symm hab]
        · simp [List.count_cons, hab]
      · rw [if_neg (by tauto), if_neg (by tauto)]
        exact entropy_three_distinct a b c hab hac hbc

/-- The three-way proportion vector [movesShare, clicksShare, keysShare]
built by extractTemporalFeatures when the total event count is positive. -/
noncomputable def signalShares (moves : List MouseMoveEvent)
    (clicks : List ClickEvent) (keys : List KeyEvent) : ℝ × ℝ × ℝ :=
  let total := moves.length + clicks.length + keys.length
  ((moves.length : ℝ) / (total : ℝ), (clicks.length : ℝ) / (total : ℝ),
   (keys.length : ℝ) / (total : ℝ))

/-- For a batch with at least one event, the signalDiversityEntropy feature
is the grouping entropy of the three-share proportion vector. -/
theorem lookup_signalDiversityEntropy (moves : List MouseMoveEvent)
    (clicks : List ClickEvent) (keys : List KeyEvent)
    (h : 0 < moves.length + clicks.length + keys.length) :
    (extractTemporalFeatures moves clicks keys).lookup "signalDiversityEntropy"
      = some (calculateEntropy [(signalShares moves clicks keys).1,
          (signalShares moves clicks keys).2.1,
          (signalShares moves clicks keys).2.2]) := by
  unfold extractTemporalFeatures signalShares
  by_cases h2 : 2 ≤ moves.length + (clicks.length + keys.length)
  · simp [h2, h, List.lookup]
  · simp [h2, h, List.lookup]

/-- C10: the signalDiversityEntropy feature depends only on which of the
three signal shares are equal to one another; for a batch whose three
signal lists are non-empty and of pairwise-equal length it is exactly 0. -/
theorem signalDiversityEntropy_C10 :
    (∀ (m1 : List MouseMoveEvent) (c1 : List ClickEvent) (k1 : List KeyEvent)
       (m2 : List MouseMoveEvent) (c2 : List ClickEvent) (k2 : List KeyEvent),
      0 < m1.length + c1.length + k1.length →
      0 < m2.length + c2.length + k2.length →
      (((signalShares m1 c1 k1).1 = (signalShares m1 c1 k1).2.1) ↔
        ((signalShares m2 c2 k2).1 = (signalShares m2 c2 k2).2.1)) →
      (((signalShares m1 c1 k1).1 = (signalShares m1 c1 k1).2.2) ↔
        ((signalShares m2 c2 k2).1 = (signalShares m2 c2 k2).2.2)) →
      (((signalShares m1 c1 k1).2.1 = (signalShares m1 c1 k1).2.2) ↔
        ((signalShares m2 c2 k2).2.1 = (signalShares m2 c2 k2).2.2)) →
      (extractTemporalFeatures m1 c1 k1).lookup "signalDiversityEntropy"
        = (extractTemporalFeatures m2 c2 k2).lookup "signalDiversityEntropy") ∧
    (∀ (m : List MouseMoveEvent) (c : List ClickEvent) (k : List KeyEvent),
      0 < m.length → m.length = c.length → c.length = k.length →
      (extractTemporalFeatures m c k).lookup "signalDiversityEntropy"
        = some 0) := by
  constructor
  · intro m1 c1 k1 m2 c2 k2 h1 h2 p1 p2 p3
    rw [lookup_signalDiversityEntropy m1 c1 k1 h1,
      lookup_signalDiversityEntropy m2 c2 k2 h2]
    rw [calculateEntropy_three, calculateEntropy_three]
    unfold entropy3Class
    simp only [p1, p2, p3]
  · intro m c k hm hmc hck
    have htot : 0 < m.length + c.length + k.length := by omega
    rw [lookup_signalDiversityEntropy m c k htot]
    unfold signalShares
    have hc : c.length = m.length := hmc.symm
    have hk : k.length = m.length := by omega
    rw [hc, hk]
    congr 1
    apply calculateEntropy_all_eq _ ((m.length : ℝ)
      / ((m.length + m.length + m.length : ℕ) : ℝ))
    intro x hx
    simp only [List.mem_cons, List.not_mem_nil, or_false] at hx
    tauto

/-- Witness for C10 on a batch with one move, one click and one key. -/
theorem signalDiversityEntropy_C10_witness :
    (extractTemporalFeatures [{ x := 0, y := 0, ts := 0 }]
      [{ ts := 0, button := 0 }] [{ code := "a", ts := 0 }]).lookup
        "signalDiversityEntropy" = some 0 :=
  signalDiversityEntropy_C10.2 [{ x := 0, y := 0, ts := 0 }]
    [{ ts := 0, button := 0 }] [{ code := "a", ts := 0 }]
    (by decide) (by decide) (by decide)

/-- The coordinate list the mouse extractor builds from a move list. -/
noncomputable def pathCoords (moves : List MouseMoveEvent) : List (ℝ × ℝ) :=
  moves.map (fun m => (m.x, m.y))

/-- Sum of the consecutive-point distances, the totalDistance of the
source. -/
noncomputable def totalPathLength (coords : List (ℝ × ℝ)) : ℝ :=
  (List.zipWith distance coords coords.tail).sum

/-- Distance from the first to the last coordinate, the straightLine of
the source. -/
noncomputable def straightLineDistance (coords : List (ℝ × ℝ)) : ℝ :=
  distance (coords.headD (0, 0)) (coords.getLastD (0, 0))

/-- A planar point as a complex number, for vector reasoning. -/
def toC (p : ℝ × ℝ) : ℂ := ⟨p.1, p.2⟩

/-- A coordinate path is collinear with monotonic direction when every
consecutive displacement is a nonnegative multiple of one fixed vector. -/
def collinearMonotonic (coords : List (ℝ × ℝ)) : Prop :=
  ∃ v : ℂ, ∀ s ∈ List.zipWith (fun x y => toC y - toC x) coords coords.tail,
    ∃ t : ℝ, 0 ≤ t ∧ s = (t : ℂ) * v

/-- The Euclidean distance is the modulus of the complex displacement. -/
theorem distance_eq_abs (p q : ℝ × ℝ) :
    distance p q = Complex.abs (toC q - toC p) := by
  unfold distance toC
  rw [Complex.abs_apply, Complex.normSq_apply]
  simp only [Complex.sub_re, Complex.sub_im]
  congr 1
  ring

/-- Modulus of a sum is at most the sum of the moduli. -/
theorem abs_sum_le (l : List ℂ) :
    Complex.abs l.sum ≤ (l.map Complex.abs).sum := by
  induction l with
  | nil => simp
  | cons a l ih =>
    simp only [List.sum_cons, List.map_cons]
    calc Complex.abs (a + l.sum)
        ≤ Complex.abs a + Complex.abs l.sum := Complex.abs.add_le _ _
      _ ≤ Complex.abs a + (l.map Complex.abs).sum := by
          exact add_le_add_left ih _

/-- The consecutive displacements of a path telescope to the displacement
from the first point to the last. -/
theorem steps_sum (c : List (ℝ × ℝ)) : ∀ p : ℝ × ℝ,
    (List.zipWith (fun x y => toC y - toC x) (p :: c) c).sum
      = toC (c.getLastD p) - toC p := by
  induction c with
  | nil => intro p; simp
  | cons q c ih =>
    intro p
    rw [List.zipWith_cons_cons, List.sum_cons, ih q, List.getLastD_cons]
    ring

/-- The total path length is the sum of the displacement moduli. -/
theorem totalPath_eq (coords : List (ℝ × ℝ)) :
    totalPathLength coords
      = ((List.zipWith (fun x y => toC y - toC x) coords coords.tail).map
          Complex.abs).sum := by
  unfold totalPathLength
  rw [List.map_zipWith]
  have hfun : distance = fun (x y : ℝ × ℝ) => Complex.abs (toC y - toC x) :=
    funext fun x => funext fun y => distance_eq_abs x y
  rw [hfun]

/-- A list of nonnegative multiples of one vector sums to a nonnegative
multiple of it, and its moduli sum to the matching multiple of the
modulus. -/
theorem collinear_sum (v : ℂ) (l : List ℂ)
    (h : ∀ s ∈ l, ∃ t : ℝ, 0 ≤ t ∧ s = (t : ℂ) * v) :
    ∃ T : ℝ, 0 ≤ T ∧ l.sum = (T : ℂ) * v ∧
      (l.map Complex.abs).sum = T * Complex.abs v := by
  induction l with
  | nil => exact ⟨0, le_refl 0, by simp, by simp⟩
  | cons a l ih =>
    obtain ⟨t, ht, ha⟩ := h a (List.mem_cons_self a l)
    obtain ⟨T, hT, hsum, habs⟩ := ih (fun s hs => h s (List.mem_cons_of_mem a hs))
    refine ⟨t + T, by positivity, ?_, ?_⟩
    · rw [List.sum_cons, ha, hsum]
      push_cast
      ring
    · rw [List.map_cons, List.sum_cons, habs, ha]
      rw [map_mul Complex.abs, Complex.abs_ofReal, abs_of_nonneg ht]
      ring

/-- Triangle inequality along the path: the straight-line distance from
first to last point is at most the total path length. -/
theorem straight_le_total (coords : List (ℝ × ℝ)) (hne : coords ≠ []) :
    straightLineDistance coords ≤ totalPathLength coords := by
  obtain ⟨p, c, rfl⟩ := List.exists_cons_of_ne_nil hne
  unfold straightLineDistance
  rw [totalPath_eq]
  simp only [List.headD_cons, List.getLastD_cons, List.tail_cons]
  rw [distance_eq_abs, ← steps_sum c p]
  exact abs_sum_le _

/-- On a collinear monotonic path the total path length equals the
straight-line distance. -/
theorem collinear_total_eq_straight (coords : List (ℝ × ℝ))
    (hne : coords ≠ []) (hcol : collinearMonotonic coords) :
    totalPathLength coords = straightLineDistance coords := by
  obtain ⟨p, c, rfl⟩ := List.exists_cons_of_ne_nil hne
  obtain ⟨v, hv⟩ := hcol
  obtain ⟨T, hT, hsum, habs⟩ := collinear_sum v _ hv
  rw [totalPath_eq]
  unfold straightLineDistance
  simp only [List.headD_cons, List.getLastD_cons, List.tail_cons] at *
  rw [distance_eq_abs, ← steps_sum c p, hsum, habs]
  rw [map_mul Complex.abs, Complex.abs_ofReal, abs_of_nonneg hT]

/-- The mousePathEfficiency entry of the non-degenerate mouse extractor. -/
theorem lookup_mousePathEfficiency (moves : List MouseMoveEvent)
    (h : 2 ≤ moves.length) :
    (extractMouseFeatures moves).lookup "mousePathEfficiency"
      = some (totalPathLength (pathCoords moves)
          / max (straightLineDistance (pathCoords moves)) 1) := by
  unfold extractMouseFeatures extractCoordinatesAndTimes pathCoords
    totalPathLength straightLineDistance
  rw [if_neg (by omega), if_neg (by omega)]
  simp [List.lookup]

/-- C4 (amended): for at least 2 moves, the mousePathEfficiency feature
equals totalPathLength / max(straightLineDistance(first,last), 1.0); this
value is at least 1.0 whenever the endpoints are at least 1.0 px apart, and
exactly 1.0 for a collinear monotonic path whose endpoints are at least
1.0 px apart. Without the endpoint condition, the 1.0 px floor on the
denominator pushes the quotient below 1 for short paths. -/
theorem mousePathEfficiency_C4 (moves : List MouseMoveEvent)
    (h2 : 2 ≤ moves.length) :
    (extractMouseFeatures moves).lookup "mousePathEfficiency"
      = some (totalPathLength (pathCoords moves)
          / max (straightLineDistance (pathCoords moves)) 1) ∧
    (1 ≤ straightLineDistance (pathCoords moves) →
      1 ≤ totalPathLength (pathCoords moves)
          / max (straightLineDistance (pathCoords moves)) 1) ∧
    (collinearMonotonic (pathCoords moves) →
      1 ≤ straightLineDistance (pathCoords moves) →
      totalPathLength (pathCoords moves)
          / max (straightLineDistance (pathCoords moves)) 1 = 1) := by
  have hmne : moves ≠ [] := by
    intro he; rw [he] at h2; simp at h2
  have hne : pathCoords moves ≠ [] := by
    unfold pathCoords
    exact fun hm => hmne (List.map_eq_nil_iff.mp hm)
  refine ⟨lookup_mousePathEfficiency moves h2, ?_, ?_⟩
  · intro hs
    rw [max_eq_left hs]
    have hle := straight_le_total _ hne
    have hpos : 0 < straightLineDistance (pathCoords moves) :=
      lt_of_lt_of_le one_pos hs
    exact (one_le_div hpos).mpr hle
  · intro hcol hs
    rw [collinear_total_eq_straight _ hne hcol, max_eq_left hs,
      div_self (ne_of_gt (lt_of_lt_of_le one_pos hs))]

/-- Counterexample to C4 as stated: a two-move path with endpoints half a
pixel apart is collinear and monotonic, yet its mousePathEfficiency is 0.5,
strictly below the claimed lower bound 1.0. -/
theorem mousePathEfficiency_counterexample_C4 :
    (extractMouseFeatures
      [{ x := 0, y := 0, ts := 0 }, { x := 1 / 2, y := 0, ts := 100 }]).lookup
        "mousePathEfficiency" = some (1 / 2) ∧ ¬ ((1 : ℝ) ≤ 1 / 2) := by
  constructor
  · rw [lookup_mousePathEfficiency _ (by simp)]
    unfold pathCoords totalPathLength straightLineDistance
    simp only [List.map_cons, List.map_nil, List.tail_cons,
      List.zipWith_cons_cons, List.zipWith_nil_right, List.sum_cons,
      List.sum_nil, List.headD_cons, List.getLastD_cons,
      List.getLastD_nil, add_zero]
    simp only [distance_same_y]
    rw [show |(1:ℝ)/2 - 0| = 1/2 by
      rw [sub_zero]; exact abs_of_nonneg (by norm_num)]
    rw [max_eq_right (by norm_num : (1:ℝ)/2 ≤ 1)]
    norm_num
  · norm_num

/-- Witness for C4 on the two-point path from (0,0) to (3,4): endpoints 5 px
apart, collinear and monotonic, efficiency exactly 1. -/
theorem mousePathEfficiency_C4_witness :
    2 ≤ ([{ x := 0, y := 0, ts := 0 },
          { x := 3, y := 4, ts := 100 }] : List MouseMoveEvent).length ∧
    (extractMouseFeatures [{ x := 0, y := 0, ts := 0 },
        { x := 3, y := 4, ts := 100 }]).lookup "mousePathEfficiency"
      = some 1 := by
  have h := mousePathEfficiency_C4 [{ x := 0, y := 0, ts := 0 },
    { x := 3, y := 4, ts := 100 }] (by simp)
  have hs : straightLineDistance (pathCoords [{ x := 0, y := 0, ts := 0 },
      { x := 3, y := 4, ts := 100 }]) = 5 := by
    unfold pathCoords straightLineDistance
    simp only [List.map_cons, List.map_nil, List.headD_cons,
      List.getLastD_cons, List.getLastD_nil]
    unfold distance
    norm_num
    rw [show (25:ℝ) = 5 ^ 2 by norm_num]
    exact Real.sqrt_sq (by norm_num)
  have hcol : collinearMonotonic (pathCoords [{ x := 0, y := 0, ts := 0 },
      { x := 3, y := 4, ts := 100 }]) := by
    refine ⟨⟨3, 4⟩, ?_⟩
    intro s hsm
    unfold pathCoords at hsm
    simp only [List.map_cons, List.map_nil, List.tail_cons,
      List.zipWith_cons_cons, List.zipWith_nil_right,
      List.mem_singleton] at hsm
    refine ⟨1, by norm_num, ?_⟩
    rw [hsm]
    apply Complex.ext
    · simp [toC]
    · simp [toC]
  refine ⟨by simp, ?_⟩
  rw [h.1, h.2.2 hcol (by rw [hs]; norm_num)]

/-- Bind of an ok value in the Except monad. -/
theorem bind_ok_eq {E α β : Type} (a : α) (f : α → Except E β) :
    (Except.ok a >>= f) = f a := rfl

/-- Bind of an error in the Except monad. -/
theorem bind_error_eq {E α β : Type} (e : E) (f : α → Except E β) :
    ((Except.error e : Except E α) >>= f) = Except.error e := rfl

/-- Pure in the Except monad is ok. -/
theorem pure_eq_ok {E α : Type} (a : α) :
    (pure a : Except E α) = Except.ok a := rfl

/-- Mapping a required-field access over events whose field is always
present yields the list of field values. -/
theorem mapM_requireField_ok {α β : Type} (g : β → Option α) (d : α) :
    ∀ l : List β, (∀ m ∈ l, (g m).isSome) →
      l.mapM (fun m => requireField (g m))
        = Except.ok (l.map (fun m => (g m).getD d)) := by
  intro l
  rw [← List.mapM'_eq_mapM]
  induction l with
  | nil => intro _; rfl
  | cons a l ih =>
    intro h
    obtain ⟨v, hv⟩ := Option.isSome_iff_exists.mp (h a (List.mem_cons_self a l))
    show (requireField (g a) >>= fun x =>
        List.mapM' (fun m => requireField (g m)) l >>= fun xs => pure (x :: xs)) = _
    rw [ih (fun m hm => h m (List.mem_cons_of_mem a hm))]
    rw [hv, List.map_cons, hv]
    rfl

/-- Mapping a required-field access over events one of which misses the
field propagates the KeyError. -/
theorem mapM_requireField_error {α β : Type} (g : β → Option α) :
    ∀ l : List β, (∃ m ∈ l, g m = none) →
      l.mapM (fun m => requireField (g m)) = Except.error "KeyError" := by
  intro l
  rw [← List.mapM'_eq_mapM]
  induction l with
  | nil =>
    intro h
    obtain ⟨m, hm, _⟩ := h
    exact absurd hm (List.not_mem_nil m)
  | cons a l ih =>
    intro h
    show (requireField (g a) >>= fun x =>
        List.mapM' (fun m => requireField (g m)) l >>= fun xs => pure (x :: xs)) = _
    cases hga : g a with
    | none => rfl
    | some v =>
      have hl : ∃ m ∈ l, g m = none := by
        obtain ⟨m, hm, hgm⟩ := h
        rcases List.mem_cons.mp hm with rfl | hm2
        · rw [hga] at hgm; exact absurd hgm (by simp)
        · exact ⟨m, hm2, hgm⟩
      rw [ih hl]
      rfl

/-- The coordinate comprehension over moves with both coordinates present
yields the coordinate pairs. -/
theorem mapM_xy_ok :
    ∀ l : List MouseMoveEventD, (∀ m ∈ l, m.x.isSome ∧ m.y.isSome) →
      l.mapM (fun m => (do
          pure ((← requireField m.x), (← requireField m.y))
        : Except String (ℝ × ℝ)))
        = Except.ok (l.map (fun m => (m.x.getD 0, m.y.getD 0))) := by
  intro l
  rw [← List.mapM'_eq_mapM]
  induction l with
  | nil => intro _; rfl
  | cons a l ih =>
    intro h
    obtain ⟨vx, hvx⟩ := Option.isSome_iff_exists.mp (h a (List.mem_cons_self a l)).1
    obtain ⟨vy, hvy⟩ := Option.isSome_iff_exists.mp (h a (List.mem_cons_self a l)).2
    show ((do pure ((← requireField a.x), (← requireField a.y))
          : Except String (ℝ × ℝ)) >>= fun x =>
        List.mapM' _ l >>= fun xs => pure (x :: xs)) = _
    rw [ih (fun m hm => h m (List.mem_cons_of_mem a hm))]
    rw [List.map_cons, hvx, hvy]
    rfl

/-- The coordinate comprehension over moves one of which misses a
coordinate propagates the KeyError. -/
theorem mapM_xy_error :
    ∀ l : List MouseMoveEventD, (∃ m ∈ l, m.x = none ∨ m.y = none) →
      l.mapM (fun m => (do
          pure ((← requireField m.x), (← requireField m.y))
        : Except String (ℝ × ℝ)))
        = Except.error "KeyError" := by
  intro l
  rw [← List.mapM'_eq_mapM]
  induction l with
  | nil =>
    intro h
    obtain ⟨m, hm, _⟩ := h
    exact absurd hm (List.not_mem_nil m)
  | cons a l ih =>
    intro h
    show ((do pure ((← requireField a.x), (← requireField a.y))
          : Except String (ℝ × ℝ)) >>= fun x =>
        List.mapM' _ l >>= fun xs => pure (x :: xs)) = _
    cases hax : a.x with
    | none => rfl
    | some vx =>
      cases hay : a.y with
      | none => rfl
      | some vy =>
        have hl : ∃ m ∈ l, m.x = none ∨ m.y = none := by
          obtain ⟨m, hm, hgm⟩ := h
          rcases List.mem_cons.mp hm with rfl | hm2
          · rcases hgm with hx | hy
            · rw [hax] at hx; exact absurd hx (by simp)
            · rw [hay] at hy; exact absurd hy (by simp)
          · exact ⟨m, hm2, hgm⟩
        rw [ih hl]
        rfl

/-- Projections of the stripped click event. -/
theorem stripClick_ts (c : ClickEventD) : (stripClick c).ts = c.ts.getD 0 := rfl

/-- Button projection of the stripped click event. -/
theorem stripClick_button (c : ClickEventD) :
    (stripClick c).button = c.button.getD 0 := rfl

/-- Code projection of the stripped key event. -/
theorem stripKey_code (k : KeyEventD) :
    (stripKey k).code = k.code.getD "Unknown" := rfl

/-- Timestamp projection of the stripped key event. -/
theorem stripKey_ts (k : KeyEventD) : (stripKey k).ts = k.ts.getD 0 := rfl

/-- Counterexample to C8 as stated: a batch of two clicks whose button
field is missing is processed without any error, the missing buttons being
silently defaulted to the primary code 0 (clickLeftRatio 1.0); likewise a
key event with a missing code is processed without error, the code being
defaulted to Unknown (entropy of the one-element Unknown list, 0.0). -/
theorem missing_button_code_defaulted_C8 :
    extractClickFeaturesD
        [{ ts := some 1000, button := none }, { ts := some 1500, button := none }]
      = Except.ok
        [("clickCount", 2), ("clickIntervalMeanMs", 500),
         ("clickIntervalStdMs", 0), ("clickIntervalMinMs", 500),
         ("clickIntervalMaxMs", 500), ("clickClusteringRatio", 0),
         ("clickRatePerSec", 4), ("clickLeftRatio", 1)] ∧
    extractKeystrokeFeaturesD [{ code := none, ts := some 5 }]
      = Except.ok
        [("keyCount", 1), ("keyInterKeyDelayMeanMs", 0),
         ("keyInterKeyDelayStd", 0), ("keyRapidPresses", 0),
         ("keyEntropy", 0), ("keyRatePerSec", 0)] := by
  constructor
  · have hmap : (([{ ts := some 1000, button := none },
        { ts := some 1500, button := none }] : List ClickEventD).mapM
          (fun c => requireField c.ts)) = Except.ok [1000, 1500] := rfl
    unfold extractClickFeaturesD
    rw [hmap]
    norm_num [bind_ok_eq, pure_eq_ok, listMean, listStd, listMin, listMax,
      List.filter_cons]
  · have hmap : (([{ code := none, ts := some 5 }] : List KeyEventD).mapM
        (fun k => requireField k.ts)) = Except.ok [5] := rfl
    have hent : calculateEntropy ["Unknown"] = 0 :=
      calculateEntropy_all_eq _ "Unknown" (by intro x hx; simpa using hx)
    unfold extractKeystrokeFeaturesD
    rw [hmap]
    norm_num [bind_ok_eq, pure_eq_ok, hent]

/-- C8 (amended): with at least 2 moves, a move event missing x, y or its
timestamp makes coordinate extraction surface a KeyError to the caller;
with fewer than 2 moves the length guard returns the degenerate empty pair
before any field is read, so nothing raises. A click missing its button
code and a key missing its code are not errors: whenever the timestamps the
extractors do read are all present, extraction succeeds and returns exactly
the features of the batch with the missing button replaced by the primary
code 0 and the missing key code replaced by the string Unknown. -/
theorem missing_field_handling_C8 :
    (∀ moves : List MouseMoveEventD, 2 ≤ moves.length →
      (∃ m ∈ moves, m.x = none ∨ m.y = none ∨ m.ts = none) →
      extractCoordinatesAndTimesD moves = Except.error "KeyError") ∧
    (∀ moves : List MouseMoveEventD, moves.length < 2 →
      extractCoordinatesAndTimesD moves = Except.ok ([], [])) ∧
    (∀ clicks : List ClickEventD, (∀ c ∈ clicks, c.ts.isSome) →
      extractClickFeaturesD clicks
        = Except.ok (extractClickFeatures (clicks.map stripClick))) ∧
    (∀ keys : List KeyEventD, (∀ k ∈ keys, k.ts.isSome) →
      extractKeystrokeFeaturesD keys
        = Except.ok (extractKeystrokeFeatures (keys.map stripKey))) := by
  refine ⟨?_, ?_, ?_, ?_⟩
  · intro moves hlen hex
    unfold extractCoordinatesAndTimesD
    rw [if_neg (by omega)]
    by_cases hxy : ∃ m ∈ moves, m.x = none ∨ m.y = none
    · rw [mapM_xy_error moves hxy]
      rfl
    · push_neg at hxy
      have hok := mapM_xy_ok moves (fun m hm =>
        ⟨Option.ne_none_iff_isSome.mp (hxy m hm).1,
         Option.ne_none_iff_isSome.mp (hxy m hm).2⟩)
      rw [hok, bind_ok_eq]
      have hts : ∃ m ∈ moves, m.ts = none := by
        obtain ⟨m, hm, hc⟩ := hex
        rcases hc with hx | hy | ht
        · exact absurd hx (hxy m hm).1
        · exact absurd hy (hxy m hm).2
        · exact ⟨m, hm, ht⟩
      rw [mapM_requireField_error (fun m => m.ts) moves hts]
      rfl
  · intro moves hlen
    unfold extractCoordinatesAndTimesD
    rw [if_pos hlen]
  · intro clicks hts
    have hmap := mapM_requireField_ok (fun c : ClickEventD => c.ts) (0 : ℝ)
      clicks hts
    unfold extractClickFeaturesD extractClickFeatures
    rw [List.length_map]
    by_cases h0 : clicks.length = 0
    · rw [if_pos h0, if_pos h0]
    · rw [if_neg h0, if_neg h0]
      by_cases h1 : 1 < clicks.length
      · rw [if_pos h1, if_pos h1, hmap]
        simp only [bind_ok_eq, pure_eq_ok]
        simp [List.map_map, Function.comp_def, stripClick_ts, stripClick_button]
      · rw [if_neg h1, if_neg h1]
        simp only [bind_ok_eq, pure_eq_ok]
        simp [List.map_map, Function.comp_def, stripClick_ts, stripClick_button]
  · intro keys hts
    have hmap := mapM_requireField_ok (fun k : KeyEventD => k.ts) (0 : ℝ)
      keys hts
    unfold extractKeystrokeFeaturesD extractKeystrokeFeatures interKeyDelaysD
      interKeyDelays
    rw [List.length_map]
    by_cases h0 : keys.length = 0
    · rw [if_pos h0, if_pos h0]
    · rw [if_neg h0, if_neg h0, hmap]
      by_cases h1 : 1 < keys.length
      · have hlt : ¬keys.length < 2 := by omega
        rw [if_pos h1, if_pos h1, if_neg hlt, if_neg hlt]
        simp only [bind_ok_eq, pure_eq_ok]
        simp [List.map_map, Function.comp_def, stripKey_ts, stripKey_code]
      · rw [if_neg h1, if_neg h1]
        simp only [bind_ok_eq, pure_eq_ok]
        simp [List.map_map, Function.comp_def, stripKey_ts, stripKey_code]

/-- Witness for C8: a 2-move list with a missing x raises, a 1-move list
with a missing x returns the degenerate empty pair without raising, and a
click list and key list with timestamps present but button and code missing
extract as if defaulted. -/
theorem missing_field_handling_C8_witness :
    extractCoordinatesAndTimesD
        [{ x := none, y := some 0, ts := some 0 },
         { x := some 1, y := some 1, ts := some 1 }]
      = Except.error "KeyError" ∧
    extractCoordinatesAndTimesD [{ x := none, y := some 0, ts := some 0 }]
      = Except.ok ([], []) ∧
    extractClickFeaturesD [{ ts := some 7, button := none }]
      = Except.ok (extractClickFeatures [{ ts := 7, button := 0 }]) ∧
    extractKeystrokeFeaturesD [{ code := none, ts := some 9 }]
      = Except.ok (extractKeystrokeFeatures [{ code := "Unknown", ts := 9 }]) := by
  refine ⟨?_, ?_, ?_, ?_⟩
  · exact missing_field_handling_C8.1 _ (by decide)
      ⟨_, List.mem_cons_self _ _, Or.inl rfl⟩
  · exact missing_field_handling_C8.2.1 _ (by decide)
  · have h := missing_field_handling_C8.2.2.1 [{ ts := some 7, button := none }]
      (by intro c hc; rcases List.mem_cons.mp hc with rfl | h2
          · rfl
          · exact absurd h2 (List.not_mem_nil c))
    simpa [stripClick] using h
  · have h := missing_field_handling_C8.2.2.2 [{ code := none, ts := some 9 }]
      (by intro k hk; rcases List.mem_cons.mp hk with rfl | h2
          · rfl
          · exact absurd h2 (List.not_mem_nil k))
    simpa [stripKey] using h

end BotDetect
